import Mathlib

/-!
Verification of the GetPawsy catalog search and recommendation core.

This file gives a shallow embedding, in Lean 4, of the algorithmic core of the
repository: the text normalizer, fuzzy relevance scorer, filter/sort stage and
search index builder of `engine_search.py`, and the similarity/upsell/popularity
scorers of `engines/upsell_engine_v2.py`.  Python dictionaries holding product
records are modelled as structures with `Option` fields (a missing key is
`none`); Python floats are modelled as rationals; Python's stable `list.sort`
is modelled by a stable insertion sort; fallible operations (`float(...)`)
return `Except`.  File I/O (`load_products`, writing the index JSON) is outside
the model: every entry point takes the loaded catalog as an explicit argument,
exactly as the spec's `search(query, filters, sort, limit)` /
`recommend(context, seed_or_cart, limit)` interfaces describe.
-/

/-! ### Python character and string primitives (`engine_search.py` helpers)

`str.lower`, `\s`, `\w`, `str.split()`, `str.strip()` are modelled on ASCII
characters (the source's Unicode-aware behaviour coincides on every input
appearing in this development).
-/

/-- ASCII whitespace, as matched by Python's `\s` and `str.split()`/`str.strip()`. -/
def pyIsSpace (c : Char) : Bool :=
  c = ' ' || c = '\t' || c = '\n' || c = '\r' || c = '\x0b' || c = '\x0c'

/-- A Python `\w` word character: alphanumeric or underscore. -/
def isWordChar (c : Char) : Bool :=
  c.isAlphanum || c = '_'

/-- The substitution `re.sub(r'[^\w\s]', ' ', text)` acting on one character:
characters that are neither word characters nor whitespace become a space. -/
def mapWordChar (c : Char) : Char :=
  if isWordChar c || pyIsSpace c then c else ' '

/-- `re.sub(r'\s+', ' ', text)`: each maximal whitespace run collapses to a
single space.  The boolean records whether the previous character was
whitespace (so the run has already emitted its single space). -/
def squeeze : Bool → List Char → List Char
  | _, [] => []
  | prev, c :: cs =>
    if pyIsSpace c then
      (if prev then squeeze true cs else ' ' :: squeeze true cs)
    else c :: squeeze false cs

/-- Drop leading whitespace. -/
def stripLeft (l : List Char) : List Char := l.dropWhile pyIsSpace

/-- Drop trailing whitespace. -/
def stripRight (l : List Char) : List Char := (l.reverse.dropWhile pyIsSpace).reverse

/-- Python `str.strip()`. -/
def pyStrip (l : List Char) : List Char := stripRight (stripLeft l)

/-- Python `str.lower()` (ASCII case mapping). -/
def pyLower (s : String) : String := ⟨s.data.map Char.toLower⟩

/-- Helper for `pySplitWs`: accumulate the current word (reversed) while
scanning. -/
def wordsAux (cur : List Char) : List Char → List (List Char)
  | [] => if cur.isEmpty then [] else [cur.reverse]
  | c :: cs =>
    if pyIsSpace c then
      (if cur.isEmpty then wordsAux [] cs else cur.reverse :: wordsAux [] cs)
    else wordsAux (c :: cur) cs

/-- Python `str.split()` with no argument: maximal nonempty runs of
non-whitespace characters. -/
def pySplitWs (l : List Char) : List (List Char) := wordsAux [] l

/-- Join words with single spaces (used by the specification-style restatement
of the normalizer). -/
def joinWords : List (List Char) → List Char
  | [] => []
  | [w] => w
  | w :: ws => w ++ ' ' :: joinWords ws

/-- `normalize_text` from `engine_search.py`:

    if not text: return ""
    text = str(text).lower()
    text = re.sub(r'[^\w\s]', ' ', text)
    text = re.sub(r'\s+', ' ', text).strip()

`none` models a `None`/missing input (the `if not text` branch; an empty
string input takes the same branch and also yields `""`, which coincides with
running the pipeline on it). -/
def normalize_text : Option String → String
  | none => ""
  | some s => ⟨pyStrip (squeeze false ((s.data.map Char.toLower).map mapWordChar))⟩

/-- The specification's wording of the same contract: lowercase, replace
each character that is neither a word character nor whitespace by a space,
then split into whitespace-separated words and join them with single spaces
(which collapses runs and trims the ends). -/
def normalizeSpec (s : String) : String :=
  ⟨joinWords (pySplitWs ((s.data.map Char.toLower).map mapWordChar))⟩

/-- Python's substring test `needle in hay` on strings. -/
def strIn (needle hay : String) : Bool :=
  (List.range (hay.data.length + 1)).any
    (fun i => needle.data.isPrefixOf (hay.data.drop i))

/-- Python `x or d` for an optional numeric `x` (both `None` and `0` are
falsy and give the default). -/
def pyOrQ (x : Option ℚ) (d : ℚ) : ℚ :=
  match x with
  | none => d
  | some v => if v = 0 then d else v

/-- A filter value as it arrives from a request: a number or a string
(the two JSON-ish shapes `float(...)` is applied to in `apply_filters`). -/
inductive PyVal where
  | num (q : ℚ)
  | str (s : String)
deriving DecidableEq

/-- Parse an unsigned decimal literal: `digits`, `digits.digits`, `.digits`
or `digits.` -/
def parseUnsigned? (l : List Char) : Option ℚ :=
  let intPart := l.takeWhile (·.isDigit)
  let rest := l.drop intPart.length
  let natVal : List Char → ℚ := fun ds => ds.foldl (fun a c => a * 10 + (c.toNat - '0'.toNat : ℕ)) 0
  match rest with
  | [] => if intPart.isEmpty then none else some (natVal intPart)
  | '.' :: frac =>
    if frac.all (·.isDigit) && !(intPart.isEmpty && frac.isEmpty) then
      some (natVal intPart + natVal frac / ((10 : ℚ) ^ frac.length))
    else none
  | _ => none

/-- Python `float(s)` on a string: strip whitespace, optional sign, decimal
literal (scientific notation and the named constants are not used by this
repository's filter values and are not modelled).  Failure carries the
`ValueError` message (modelled without CPython's quoting of the operand). -/
def pyFloatParse? (s : String) : Option ℚ :=
  match pyStrip s.data with
  | '+' :: r => parseUnsigned? r
  | '-' :: r => (parseUnsigned? r).map Neg.neg
  | r => parseUnsigned? r

instance {ε α : Type} [DecidableEq ε] [DecidableEq α] : DecidableEq (Except ε α) := fun x y =>
  match x, y with
  | .ok a, .ok b =>
    if h : a = b then isTrue (by rw [h]) else isFalse (by intro he; cases he; exact h rfl)
  | .error a, .error b =>
    if h : a = b then isTrue (by rw [h]) else isFalse (by intro he; cases he; exact h rfl)
  | .ok _, .error _ => isFalse (by intro h; cases h)
  | .error _, .ok _ => isFalse (by intro h; cases h)

/-- Python `float(v)` on a filter value. -/
def pyFloat : PyVal → Except String ℚ
  | .num q => .ok q
  | .str s =>
    match pyFloatParse? s with
    | some q => .ok q
    | none => .error ("could not convert string to float: " ++ s)

/-! ### Stable sorting (Python `list.sort` / `sorted`)

Python's sort is stable; `reverse=True` yields a stable descending order.
`insertBy le x l` inserts `x` before the first element `y` with `le x y`;
folding from the right gives a stable insertion sort for any total preorder
`le` (for a descending sort by key `k`, `le x y` is `k y ≤ k x`).
-/

/-- Insert `x` before the first `y` with `le x y = true`. -/
def insertBy (le : α → α → Bool) (x : α) : List α → List α
  | [] => [x]
  | y :: ys => if le x y then x :: y :: ys else y :: insertBy le x ys

/-- Stable insertion sort: Python's `list.sort(key=...)` (with
`le x y = key x ≤ key y`) and `list.sort(key=..., reverse=True)` (with
`le x y = key y ≤ key x`). -/
def pySort (le : α → α → Bool) (l : List α) : List α :=
  l.foldr (insertBy le) []

/-! ### `difflib.SequenceMatcher(None, a, b).ratio()`

Used by `fuzzy_match` as the final fallback.  With `isjunk=None` the junk set
is empty, so only the `autojunk` heuristic remains: when `len(b) >= 200`,
characters occurring in more than `len(b)//100 + 1` positions of `b` are
dropped from the `b2j` table (they cannot seed a match, though the extension
loops may still grow a match across them).  `ratio` is
`2*M / (len(a)+len(b))` where `M` is the total size of the matching blocks
found by the recursive Ratcliff-Obershelp decomposition.
-/

/-- The `b2j` table: the ascending positions of `c` in `b`, with the autojunk
rule applied. -/
def b2jList (b : List Char) (c : Char) : List Nat :=
  let idxs := (List.range b.length).filter (fun j => b.getD j ' ' = c)
  if 200 ≤ b.length ∧ idxs.length > b.length / 100 + 1 then [] else idxs

/-- Lookup in the `j2len` association table (missing key yields 0). -/
def lookupNat (l : List (Nat × Nat)) (j : Nat) : Nat :=
  match l.find? (fun kv => kv.1 = j) with
  | some kv => kv.2
  | none => 0

/-- One row of `find_longest_match`'s dynamic programming: scan the matching
`j` positions for `a[i]`, building the new `j2len` table and updating the
best block (a strictly longer chain wins, so ties keep the earliest match). -/
def flmRow (i : Nat) (j2len : List (Nat × Nat)) (js : List Nat)
    (best : Nat × Nat × Nat) : List (Nat × Nat) × (Nat × Nat × Nat) :=
  js.foldl
    (fun acc j =>
      let k := (if j = 0 then 0 else lookupNat j2len (j - 1)) + 1
      let b := acc.2
      let best' := if b.2.2 < k then (i + 1 - k, j + 1 - k, k) else b
      (acc.1 ++ [(j, k)], best'))
    ([], best)

/-- The outer `for i in range(alo, ahi)` loop of `find_longest_match`. -/
def flmOuter (a b : List Char) (blo bhi : Nat) :
    List Nat → List (Nat × Nat) → Nat × Nat × Nat → Nat × Nat × Nat
  | [], _, best => best
  | i :: is, j2len, best =>
    let js := (b2jList b (a.getD i ' ')).filter (fun j => blo ≤ j && j < bhi)
    let (newj2len, best') := flmRow i j2len js best
    flmOuter a b blo bhi is newj2len best'

/-- Extend the best block to the left over equal characters (the junk set is
empty, so the only guard is equality and the interval bounds). -/
def extendLeft (a b : List Char) (alo blo besti bestj bestsize : Nat) :
    Nat × Nat × Nat :=
  if h : alo < besti ∧ blo < bestj ∧ a.getD (besti - 1) ' ' = b.getD (bestj - 1) ' ' then
    extendLeft a b alo blo (besti - 1) (bestj - 1) (bestsize + 1)
  else (besti, bestj, bestsize)
termination_by besti
decreasing_by
  have := h.1
  omega

/-- Extend the best block to the right over equal characters. -/
def extendRight (a b : List Char) (ahi bhi besti bestj bestsize : Nat) : Nat :=
  if h : besti + bestsize < ahi ∧ bestj + bestsize < bhi ∧
      a.getD (besti + bestsize) ' ' = b.getD (bestj + bestsize) ' ' then
    extendRight a b ahi bhi besti bestj (bestsize + 1)
  else bestsize
termination_by ahi - bestsize
decreasing_by
  have := h.1
  omega

/-- `SequenceMatcher.find_longest_match(alo, ahi, blo, bhi)`. -/
def find_longest_match (a b : List Char) (alo ahi blo bhi : Nat) :
    Nat × Nat × Nat :=
  let (bi, bj, bs) := flmOuter a b blo bhi (List.range' alo (ahi - alo)) [] (alo, blo, 0)
  let (bi2, bj2, bs2) := extendLeft a b alo blo bi bj bs
  let bs3 := extendRight a b ahi bhi bi2 bj2 bs2
  (bi2, bj2, bs3)

/-- Total size of the matching blocks of `get_matching_blocks`, computed by
the recursive decomposition around each longest match.  The fuel bounds the
recursion depth; each genuine recursive call strictly shrinks the interval,
so `len(a) + len(b) + 1` fuel always suffices to reproduce the source's
recursion exactly. -/
def matchTotalFuel (a b : List Char) : Nat → Nat → Nat → Nat → Nat → Nat
  | 0, _, _, _, _ => 0
  | fuel + 1, alo, ahi, blo, bhi =>
    let (i, j, k) := find_longest_match a b alo ahi blo bhi
    if k = 0 then 0
    else matchTotalFuel a b fuel alo i blo j + k + matchTotalFuel a b fuel (i + k) ahi (j + k) bhi

/-- `SequenceMatcher(None, a, b).ratio()` (with `_calculate_ratio`'s
empty-input convention of 1.0). -/
def ratioVal (a b : List Char) : ℚ :=
  if a.length + b.length = 0 then 1
  else
    let m := matchTotalFuel a b (a.length + b.length + 1) 0 a.length 0 b.length
    2 * (m : ℚ) / ((a.length + b.length : ℕ) : ℚ)

/-! ### `engine_search.py`: data model and search pipeline

A product record as used by the search engine.  `Option` models a missing
key (`dict.get` defaults are applied at each use site, as in the source);
list-valued fields default to `[]`, which is indistinguishable from a missing
key for every operation the source performs on them.  Product ids are
numeric. -/

structure SProduct where
  id : Option Nat := none
  title : Option String := none
  tags : List String := []
  seo_description : Option String := none
  bullets : List String := []
  category_name : Option String := none
  animal : Option String := none
  images : List String := []
  price : Option ℚ := none
  category_slug : Option String := none
  product_type : Option String := none
deriving DecidableEq

/-- `fuzzy_match(query, text)` from `engine_search.py`.  (The source's
`threshold=0.6` parameter is never read in the body and is omitted.)  The
initial `if not query or not text` test is on the raw arguments; the word
sets use Python `set` semantics (duplicates ignored). -/
def fuzzy_match (query text : String) : ℚ :=
  if query = "" || text = "" then 0
  else
    let q := normalize_text (some query)
    let t := normalize_text (some text)
    if strIn q t then 1
    else
      let qw := (pySplitWs q.data).dedup
      let tw := (pySplitWs t.data).dedup
      let inter := qw.filter (fun w => tw.contains w)
      if inter.length ≠ 0 then
        (4/5 : ℚ) + ((inter.length : ℚ) / (qw.length : ℚ)) * (1/5)
      else ratioVal q.data t.data

/-- `calculate_relevance(product, query, filters)` (the `filters` argument is
never read in the body and is omitted).  Weighted sum of fuzzy field matches
plus flat substring/image bonuses. -/
def calculate_relevance (p : SProduct) (query : String) : ℚ :=
  let query_lower := normalize_text (some query)
  let title := normalize_text p.title
  let score := fuzzy_match query_lower title * 100
  let score := score + (if strIn query_lower title then 50 else 0)
  let score := p.tags.foldl (fun s tag => s + fuzzy_match query_lower tag * 20) score
  let seo_desc := normalize_text p.seo_description
  let score := score + fuzzy_match query_lower seo_desc * 15
  let score := p.bullets.foldl (fun s bullet => s + fuzzy_match query_lower bullet * 10) score
  let category := normalize_text p.category_name
  let score := score + (if strIn query_lower category then 25 else 0)
  let animal := pyLower (p.animal.getD "")
  let score := score + (if strIn query_lower animal then 30 else 0)
  score + (if p.images.isEmpty then 0 else 5)

/-- The search filter set.  An absent key is `none`/`false`; Python's falsy
test `if not filters` corresponds to the all-absent record. -/
structure Filters where
  category : Option String := none
  animal : Option String := none
  price_min : Option PyVal := none
  price_max : Option PyVal := none
  has_images : Bool := false
deriving DecidableEq

/-- The `if filters.get("category"):` block of `apply_filters` (a falsy —
absent or empty — value skips the stage). -/
def filter_category (products : List SProduct) (copt : Option String) : List SProduct :=
  match copt with
  | some c =>
    if c = "" then products
    else products.filter (fun p =>
      strIn (pyLower c) (pyLower (p.category_slug.getD "")) ||
      strIn (pyLower c) (pyLower (p.product_type.getD "")))
  | none => products

/-- The `if filters.get("animal"):` block of `apply_filters`. -/
def filter_animal (products : List SProduct) (aopt : Option String) : List SProduct :=
  match aopt with
  | some a =>
    if a = "" then products
    else products.filter (fun p => pyLower (p.animal.getD "") = pyLower a)
  | none => products

/-- The `if filters.get("price_min") is not None:` block: a present value is
first converted with `float(...)`, which can raise; the missing price default
is `p.get("price") or 0`. -/
def filter_price_min (products : List SProduct) (vopt : Option PyVal) :
    Except String (List SProduct) :=
  match vopt with
  | none => .ok products
  | some v => (pyFloat v).map (fun m => products.filter (fun p => decide (m ≤ pyOrQ p.price 0)))

/-- The `if filters.get("price_max") is not None:` block; here the missing
price default is `p.get("price") or 999999`. -/
def filter_price_max (products : List SProduct) (vopt : Option PyVal) :
    Except String (List SProduct) :=
  match vopt with
  | none => .ok products
  | some v => (pyFloat v).map (fun m => products.filter (fun p => decide (pyOrQ p.price 999999 ≤ m)))

/-- The `if filters.get("has_images"):` block. -/
def filter_has_images (products : List SProduct) (b : Bool) : List SProduct :=
  if b then products.filter (fun p => !p.images.isEmpty) else products

/-- `apply_filters(products, filters)`: the five guarded stages of the source
run in sequence; only the two price stages can fail. -/
def apply_filters (products : List SProduct) (filters : Filters) :
    Except String (List SProduct) :=
  -- `if not filters: return filtered` — the falsy (absent/empty) filter dict
  if filters = ⟨none, none, none, none, false⟩ then .ok products
  else
    let f2 := filter_animal (filter_category products filters.category) filters.animal
    match filter_price_min f2 filters.price_min with
    | .error e => .error e
    | .ok f3 =>
      match filter_price_max f3 filters.price_max with
      | .error e => .error e
      | .ok f4 => .ok (filter_has_images f4 filters.has_images)

/-- The relevance-score dictionary built by `search_products`: insertion
order follows the catalog, and a later assignment to the same id overwrites
an earlier one, so a lookup returns the value of the last matching entry. -/
def scoresListOf (products : List SProduct) (query : String) : List (Option Nat × ℚ) :=
  products.map (fun p => (p.id, calculate_relevance p query))

/-- `scores.get(key, 0)`: the last-written binding wins. -/
def dictGetQ (l : List (Option Nat × ℚ)) (k : Option Nat) : ℚ :=
  match l.reverse.find? (fun kv => kv.1 = k) with
  | some kv => kv.2
  | none => 0

/-- `sort_products(products, sort_by, scores)`.  The relevance branch
requires a truthy (nonempty) scores dict; an unknown sort key returns the
list unchanged. -/
def sort_products (products : List SProduct) (sort_by : String)
    (scores : List (Option Nat × ℚ)) : List SProduct :=
  if sort_by = "relevance" && !scores.isEmpty then
    pySort (fun a b => decide (dictGetQ scores b.id ≤ dictGetQ scores a.id)) products
  else if sort_by = "price_low" then
    pySort (fun a b => decide (pyOrQ a.price 0 ≤ pyOrQ b.price 0)) products
  else if sort_by = "price_high" then
    pySort (fun a b => decide (pyOrQ b.price 0 ≤ pyOrQ a.price 0)) products
  else if sort_by = "name" then
    pySort (fun a b => decide (pyLower (a.title.getD "") ≤ pyLower (b.title.getD ""))) products
  else products

/-- The dictionary returned by `search_products`.  The early return for an
empty catalog omits the `filters` and `sort` keys (`none` here). -/
structure SearchResult where
  results : List SProduct
  total : Nat
  query : String
  filters : Option Filters
  sort : Option String
deriving DecidableEq

/-- `search_products(query, filters, sort_by, limit)`, with the catalog
passed explicitly in place of `load_products()`. -/
def search_products (products : List SProduct) (query : String)
    (filters : Filters) (sort_by : String) (limit : Nat) :
    Except String SearchResult :=
  if products.isEmpty then .ok ⟨[], 0, query, none, none⟩
  else
    let scores := scoresListOf products query
    let matched := products.filter (fun p => decide (10 ≤ dictGetQ scores p.id))
    match apply_filters matched filters with
    | .error e => .error e
    | .ok filtered =>
      let sorted_results := sort_products filtered sort_by scores
      .ok ⟨sorted_results.take limit, filtered.length, query, some filters, some sort_by⟩

/-! ### `build_search_index` -/

/-- The per-product summary stored under `index["products"]`. -/
structure ProdSummary where
  title : Option String
  price : Option ℚ
  image : Option String
deriving DecidableEq

/-- The search index; each mapping is modelled as a function from key to the
stored list (a missing key yields the empty postings list / `none`). -/
structure SearchIndex where
  productsIdx : Nat → Option ProdSummary
  terms : String → List Nat
  categories : String → List Nat
  animals : String → List Nat

/-- `index["terms"].setdefault(key, []).append(pid)`: append one id to the
postings list of one term. -/
def addTermPosting (idx : SearchIndex) (key : String) (pid : Nat) : SearchIndex :=
  { idx with terms := fun k => if k = key then idx.terms k ++ [pid] else idx.terms k }

/-- The loop body of `build_search_index` for one product: skipped for a
falsy id (`None` or `0`); appends the id to the postings of each `>2`-char
word of the normalized title, then of each nonempty normalized tag taken
wholesale, then to its category and animal lists. -/
def indexProduct (idx : SearchIndex) (p : SProduct) : SearchIndex :=
  match p.id with
  | none => idx
  | some pid =>
    if pid = 0 then idx
    else
      let idx1 := { idx with
        productsIdx := fun k =>
          if k = pid then some ⟨p.title, p.price, p.images.head?⟩ else idx.productsIdx k }
      let titleWords := (pySplitWs (normalize_text p.title).data).filter (fun w => 2 < w.length)
      let idx2 := titleWords.foldl
        (fun acc w => addTermPosting acc (⟨w⟩ : String) pid)
        idx1
      let idx3 := p.tags.foldl
        (fun acc tag =>
          let tag_norm := normalize_text (some tag)
          if tag_norm = "" then acc
          else addTermPosting acc tag_norm pid)
        idx2
      let cat := p.category_slug.getD "other"
      let idx4 := { idx3 with
        categories := fun k => if k = cat then idx3.categories k ++ [pid] else idx3.categories k }
      let anim := p.animal.getD "dog"
      { idx4 with
        animals := fun k => if k = anim then idx4.animals k ++ [pid] else idx4.animals k }

/-- `build_search_index()`, with the catalog passed explicitly; writing the
JSON file is I/O outside the model. -/
def build_search_index (products : List SProduct) : SearchIndex :=
  products.foldl indexProduct ⟨fun _ => none, fun _ => [], fun _ => [], fun _ => []⟩

/-! ### `engines/upsell_engine_v2.py`: data model and recommenders -/

/-- A product record as used by the upsell engine (`products_v5.json`).
`dict.get` defaults are applied at use sites: `published` defaults to true,
`stock`/`price`/`rating`/`reviews_count` to 0, `tags` to `[]`. -/
structure UProduct where
  id : Option Nat := none
  category : Option String := none
  tags : List String := []
  price : Option ℚ := none
  rating : Option ℚ := none
  published : Option Bool := none
  stock : Option Int := none
  badge : Option String := none
  reviews_count : Option ℚ := none
  is_bundle : Option Bool := none
deriving DecidableEq

/-- A cart/order line item (`cart_items` / `order_items`). -/
structure CartItem where
  id : Option Nat := none
  category : Option String := none
  tags : List String := []
  price : Option ℚ := none
  quantity : Option ℚ := none
deriving DecidableEq

/-- `calculate_similarity_score(product1, product2)`: category equality
(+30; note `None == None` also matches), tag-set Jaccard overlap (×40),
price proximity `max(0, 20 - |p1-p2|/max(p1,p2) * 40)` when both prices are
positive, and a rating bonus on the candidate (`rating1` is fetched but
unused in the source). -/
def calculate_similarity_score (p1 p2 : UProduct) : ℚ :=
  let s1 : ℚ := if p1.category = p2.category then 30 else 0
  let tags1 := p1.tags.dedup
  let tags2 := p2.tags.dedup
  let s2 := s1 +
    (if !tags1.isEmpty && !tags2.isEmpty then
      ((tags1.filter (fun t => tags2.contains t)).length : ℚ) /
        (((p1.tags ++ p2.tags).dedup).length : ℚ) * 40
    else 0)
  let price1 := p1.price.getD 0
  let price2 := p2.price.getD 0
  let s3 := s2 +
    (if 0 < price1 ∧ 0 < price2 then
      max 0 (20 - |price1 - price2| / max price1 price2 * 40)
    else 0)
  let rating2 := p2.rating.getD 0
  s3 + (if (9/2 : ℚ) ≤ rating2 then 10 else if (4 : ℚ) ≤ rating2 then 5 else 0)

/-- Descending stable sort of `(product, score)` pairs by score:
`candidates.sort(key=lambda x: x[1], reverse=True)`. -/
def sortPairsDesc (l : List (UProduct × ℚ)) : List (UProduct × ℚ) :=
  pySort (fun x y => decide (y.2 ≤ x.2)) l

/-- `get_popular_products(limit)`: published products ranked by
`rating*20 + reviews_count/10`, plus a flat +50 for a "Bestseller" badge. -/
def get_popular_products (products : List UProduct) (limit : Nat) : List UProduct :=
  let scored := (products.filter (fun p => p.published.getD true)).map
    (fun p =>
      (p, (p.rating.getD 0) * 20 + (p.reviews_count.getD 0) / 10 +
        (if p.badge = some "Bestseller" then 50 else 0)))
  ((sortPairsDesc scored).take limit).map (fun c => c.1)

/-- `get_upsells_for_product(product_id, limit)`: find the seed by id (first
match); if absent, fall back to popularity.  Otherwise score each candidate
(seed itself, unpublished and non-positive-stock products excluded) by
similarity plus a +15 upsell-band bonus when the candidate price lies in
`(seed_price, 1.5*seed_price]`. -/
def get_upsells_for_product (products : List UProduct) (product_id : Option Nat)
    (limit : Nat) : List UProduct :=
  match products.find? (fun p => decide (p.id = product_id)) with
  | none => get_popular_products products limit
  | some source_product =>
    let scored := (products.filter (fun p =>
        decide (¬ p.id = product_id) && p.published.getD true &&
          decide ((0 : ℤ) < p.stock.getD 0))).map
      (fun p =>
        let score := calculate_similarity_score source_product p
        let source_price := source_product.price.getD 0
        let p_price := p.price.getD 0
        (p, score +
          (if source_price < p_price ∧ p_price ≤ source_price * (3/2) then 15 else 0)))
    ((sortPairsDesc scored).take limit).map (fun c => c.1)

/-- The per-candidate score of `get_cart_upsells`, as a function of the cart
category set and cart tag union. -/
def cartItemScore (categories : List String) (ctags : List String) (p : UProduct) : ℚ :=
  let s1 : ℚ := if (match p.category with
      | some c => categories.contains c
      | none => false) then 20 else 0
  let p_tags := p.tags.dedup
  let inter := p_tags.filter (fun t => ctags.contains t)
  let s2 := s1 +
    (if !inter.isEmpty then
      (if !p_tags.isEmpty then
        (inter.length : ℚ) / (((p.tags ++ ctags).dedup).length : ℚ)
      else 0) * 30
    else 0)
  let p_price := p.price.getD 0
  let s3 := s2 + (if p_price < 20 then 25 else if p_price < 40 then 15 else 0)
  let s4 := s3 +
    (if p.badge = some "Bestseller" ∨ p.badge = some "Hot" ∨ p.badge = some "Trending"
      then 10 else 0)
  s4 + (if (9/2 : ℚ) ≤ p.rating.getD 0 then 10 else 0)

/-- `get_cart_upsells(cart_items, limit)`.  (`total_price` is computed by the
source but never used afterwards.) -/
def get_cart_upsells (products : List UProduct) (cart_items : List CartItem)
    (limit : Nat) : List UProduct :=
  let cart_ids := cart_items.map (fun it => it.id)
  let categories := cart_items.map (fun it => it.category.getD "")
  let ctags := (cart_items.flatMap (fun it => it.tags)).dedup
  let scored := (products.filter (fun p =>
      !cart_ids.contains p.id && p.published.getD true &&
        decide ((0 : ℤ) < p.stock.getD 0))).map
    (fun p => (p, cartItemScore categories ctags p))
  ((sortPairsDesc scored).take limit).map (fun c => c.1)

/-- `get_checkout_upsells(cart_items, limit)` (no stock exclusion here). -/
def get_checkout_upsells (products : List UProduct) (cart_items : List CartItem)
    (limit : Nat) : List UProduct :=
  let cart_ids := cart_items.map (fun it => it.id)
  let scored := (products.filter (fun p =>
      !cart_ids.contains p.id && p.published.getD true)).map
    (fun p =>
      let p_price := p.price.getD 0
      let s : ℚ := (if p_price ≤ 15 then 40 else if p_price ≤ 25 then 20 else 0)
      let s := s + (if p.badge = some "Bestseller" ∨ p.badge = some "Hot" then 20 else 0)
      let s := s + (if (47/10 : ℚ) ≤ p.rating.getD 0 then 15 else 0)
      let s := s + (if p.tags.contains "bundle" || p.is_bundle.getD false then 10 else 0)
      (p, s))
  ((sortPairsDesc scored).take limit).map (fun c => c.1)

/-- `get_post_purchase_upsells(order_items, limit)` (no stock exclusion; the
rating term `(rating - 4) * 20` may be negative). -/
def get_post_purchase_upsells (products : List UProduct) (order_items : List CartItem)
    (limit : Nat) : List UProduct :=
  let order_ids := order_items.map (fun it => it.id)
  let categories := order_items.map (fun it => it.category.getD "")
  let scored := (products.filter (fun p =>
      !order_ids.contains p.id && p.published.getD true)).map
    (fun p =>
      let s1 : ℚ := if (match p.category with
          | some c => categories.contains c
          | none => false) then 25 else 0
      let s2 := s1 +
        (if p.badge = some "Bestseller" ∨ p.badge = some "New" ∨ p.badge = some "Trending"
          then 15 else 0)
      (p, s2 + (p.rating.getD 0 - 4) * 20))
  ((sortPairsDesc scored).take limit).map (fun c => c.1)

/-- Python truthiness of a `product_id` value (`None` and `0` are falsy). -/
def pyTruthyId : Option Nat → Bool
  | none => false
  | some n => n ≠ 0

/-- `get_ai_recommendations(product_id, user_id, context, limit)`: for the
`cart`, `checkout` and `post_purchase` contexts the source passes an empty
cart/order list; `user_id` is never read. -/
def get_ai_recommendations (products : List UProduct) (product_id : Option Nat)
    (user_id : Option Nat) (context : String) (limit : Nat) : List UProduct :=
  if context = "product" && pyTruthyId product_id then
    get_upsells_for_product products product_id limit
  else if context = "cart" then get_cart_upsells products [] limit
  else if context = "checkout" then get_checkout_upsells products [] limit
  else if context = "post_purchase" then get_post_purchase_upsells products [] limit
  else get_popular_products products limit

/-! ### Concrete records used by the closed witness and counterexample theorems -/

def fxDog : SProduct := { id := some 1, title := some "dog" }

def fxBall : SProduct := { id := some 1, title := some "dog ball" }

def fxNoPrice : SProduct := { id := some 1 }

def fxPrice5 : SProduct := { id := some 2, price := some 5 }

def fxDup : SProduct := { id := some 1, title := some "dog dog", tags := ["a"] }

def fxNoFilters : Filters := ⟨none, none, none, none, false⟩

def fuSeedOnly : UProduct := { id := some 1, stock := some 5, rating := some 5 }

def fuOos : UProduct := { id := some 1, stock := some 0, rating := some 5 }

def fuSeed : UProduct := { id := some 1, price := some 10, category := some "toys", stock := some 3 }

def fuCand : UProduct :=
  { id := some 2, price := some 12, category := some "toys", stock := some 4,
    published := some true }

def fuP1 : UProduct := { price := some 10 }

def fuPopular : UProduct :=
  { id := some 7, rating := some 4, reviews_count := some 100, badge := some "Bestseller",
    published := some true }

/-! ### Generic lemmas about the stable sort -/

theorem insertBy_perm (le : α → α → Bool) (x : α) (l : List α) :
    List.Perm (insertBy le x l) (x :: l) := by
  induction l with
  | nil => simp [insertBy]
  | cons y ys ih =>
    unfold insertBy
    by_cases h : le x y = true
    · rw [if_pos h]
    · rw [if_neg h]
      exact (ih.cons y).trans (List.Perm.swap x y ys)

theorem pySort_perm (le : α → α → Bool) (l : List α) : List.Perm (pySort le l) l := by
  induction l with
  | nil => exact List.Perm.refl []
  | cons x xs ih => exact (insertBy_perm le x (pySort le xs)).trans (ih.cons x)

theorem mem_pySort {le : α → α → Bool} {l : List α} {a : α} :
    a ∈ pySort le l ↔ a ∈ l :=
  (pySort_perm le l).mem_iff

theorem insertBy_pairwise {le : α → α → Bool}
    (htot : ∀ a b, le a b = true ∨ le b a = true)
    (htr : ∀ a b c, le a b = true → le b c = true → le a c = true)
    (x : α) {l : List α} (hl : l.Pairwise (fun a b => le a b = true)) :
    (insertBy le x l).Pairwise (fun a b => le a b = true) := by
  induction l with
  | nil => simp [insertBy]
  | cons y ys ih =>
    rcases hl with _ | ⟨hy, hys⟩
    unfold insertBy
    by_cases h : le x y = true
    · rw [if_pos h]
      refine List.Pairwise.cons ?_ (List.Pairwise.cons hy hys)
      intro z hz
      rcases List.mem_cons.1 hz with rfl | hz
      · exact h
      · exact htr x y z h (hy z hz)
    · rw [if_neg h]
      refine List.Pairwise.cons ?_ (ih hys)
      intro z hz
      rcases List.mem_cons.1 ((insertBy_perm le x ys).mem_iff.1 hz) with rfl | hz2
      · rcases htot z y with h' | h'
        · exact absurd h' h
        · exact h'
      · exact hy z hz2

theorem pySort_pairwise {le : α → α → Bool}
    (htot : ∀ a b, le a b = true ∨ le b a = true)
    (htr : ∀ a b c, le a b = true → le b c = true → le a c = true)
    (l : List α) : (pySort le l).Pairwise (fun a b => le a b = true) := by
  induction l with
  | nil => exact List.Pairwise.nil
  | cons x xs ih => exact insertBy_pairwise htot htr x ih

theorem insertBy_keydesc_filter (key : α → ℚ) (x : α) (l : List α) (k : ℚ) :
    (insertBy (fun a b => decide (key b ≤ key a)) x l).filter (fun a => decide (key a = k))
      = if key x = k then x :: l.filter (fun a => decide (key a = k))
        else l.filter (fun a => decide (key a = k)) := by
  induction l with
  | nil =>
    by_cases hk : key x = k <;> simp [insertBy, List.filter_cons, hk]
  | cons y ys ih =>
    unfold insertBy
    by_cases h : decide (key y ≤ key x) = true
    · rw [if_pos h]
      by_cases hk : key x = k <;> simp [List.filter_cons, hk]
    · rw [if_neg h]
      have hyx : key x < key y := lt_of_not_le (by simpa using h)
      rw [List.filter_cons]
      by_cases hk : key x = k
      · have hy : ¬ (key y = k) := fun hyk => absurd (hk.trans hyk.symm ▸ hyx) (lt_irrefl _)
        rw [ih, if_pos hk, if_pos hk]
        simp [hy]
      · rw [ih, if_neg hk, if_neg hk, List.filter_cons]

theorem pySort_keydesc_filter (key : α → ℚ) (l : List α) (k : ℚ) :
    (pySort (fun a b => decide (key b ≤ key a)) l).filter (fun a => decide (key a = k))
      = l.filter (fun a => decide (key a = k)) := by
  induction l with
  | nil => rfl
  | cons x xs ih =>
    show (insertBy _ x (pySort _ xs)).filter _ = _
    rw [insertBy_keydesc_filter key x (pySort (fun a b => decide (key b ≤ key a)) xs) k]
    by_cases hk : key x = k <;> simp [hk, List.filter_cons, ih]

/-! ### The normalizer pipeline equals split-words-and-rejoin (towards C9) -/

theorem squeeze_cons_space_t {c : Char} (h : pyIsSpace c = true) (cs : List Char) :
    squeeze true (c :: cs) = squeeze true cs := by simp [squeeze, h]

theorem squeeze_cons_space_f {c : Char} (h : pyIsSpace c = true) (cs : List Char) :
    squeeze false (c :: cs) = ' ' :: squeeze true cs := by simp [squeeze, h]

theorem squeeze_cons_nonspace {c : Char} (h : pyIsSpace c = false) (b : Bool) (cs : List Char) :
    squeeze b (c :: cs) = c :: squeeze false cs := by simp [squeeze, h]

theorem wordsAux_cons_space_nil {c : Char} (h : pyIsSpace c = true) (cs : List Char) :
    wordsAux [] (c :: cs) = wordsAux [] cs := by simp [wordsAux, h]

theorem wordsAux_cons_space {c : Char} (h : pyIsSpace c = true) {cur : List Char}
    (hne : cur ≠ []) (cs : List Char) :
    wordsAux cur (c :: cs) = cur.reverse :: wordsAux [] cs := by
  simp [wordsAux, h, hne]

theorem wordsAux_cons_nonspace {c : Char} (h : pyIsSpace c = false) (cur cs : List Char) :
    wordsAux cur (c :: cs) = wordsAux (c :: cur) cs := by simp [wordsAux, h]

theorem wordsAux_ne_nil : ∀ (l cur : List Char), cur ≠ [] → wordsAux cur l ≠ [] := by
  intro l
  induction l with
  | nil => intro cur hne; simp [wordsAux, hne]
  | cons c cs ih =>
    intro cur hne
    by_cases h : pyIsSpace c = true
    · rw [wordsAux_cons_space h hne]
      simp
    · rw [wordsAux_cons_nonspace (by simpa using h) cur cs]
      exact ih (c :: cur) (by simp)

theorem wordsAux_mem_ne_nil : ∀ (l cur : List Char), ∀ w ∈ wordsAux cur l, w ≠ [] := by
  intro l
  induction l with
  | nil =>
    intro cur w hw
    by_cases hne : cur = []
    · subst hne; simp [wordsAux] at hw
    · rw [show wordsAux cur [] = [cur.reverse] by simp [wordsAux, hne]] at hw
      simp at hw
      subst hw
      simpa using hne
  | cons c cs ih =>
    intro cur w hw
    by_cases h : pyIsSpace c = true
    · by_cases hne : cur = []
      · subst hne
        rw [wordsAux_cons_space_nil h] at hw
        exact ih [] w hw
      · rw [wordsAux_cons_space h hne] at hw
        rcases List.mem_cons.1 hw with rfl | hw2
        · simpa using hne
        · exact ih [] w hw2
    · rw [wordsAux_cons_nonspace (by simpa using h) cur cs] at hw
      exact ih (c :: cur) w hw

theorem squeeze_true_of_no_words : ∀ l : List Char, wordsAux [] l = [] → squeeze true l = [] := by
  intro l
  induction l with
  | nil => intro _; rfl
  | cons c cs ih =>
    intro h0
    by_cases h : pyIsSpace c = true
    · rw [wordsAux_cons_space_nil h] at h0
      rw [squeeze_cons_space_t h]
      exact ih h0
    · rw [wordsAux_cons_nonspace (by simpa using h) [] cs] at h0
      exact absurd h0 (wordsAux_ne_nil cs [c] (by simp))

theorem dropWhile_squeeze_true (l : List Char) :
    (squeeze true l).dropWhile pyIsSpace = squeeze true l := by
  induction l with
  | nil => rfl
  | cons c cs ih =>
    by_cases h : pyIsSpace c = true
    · rw [squeeze_cons_space_t h]; exact ih
    · rw [squeeze_cons_nonspace (by simpa using h) true cs]
      simp [List.dropWhile, h]

theorem dropWhile_squeeze_false (l : List Char) :
    (squeeze false l).dropWhile pyIsSpace = squeeze true l := by
  induction l with
  | nil => rfl
  | cons c cs ih =>
    by_cases h : pyIsSpace c = true
    · rw [squeeze_cons_space_f h, squeeze_cons_space_t h]
      have hsp : pyIsSpace ' ' = true := by decide
      simp only [List.dropWhile, hsp]
      exact dropWhile_squeeze_true cs
    · rw [squeeze_cons_nonspace (by simpa using h) false cs,
        squeeze_cons_nonspace (by simpa using h) true cs]
      simp [List.dropWhile, h]

theorem dropWhile_append_of_ne_nil {p : Char → Bool} :
    ∀ (a b : List Char), a.dropWhile p ≠ [] → (a ++ b).dropWhile p = a.dropWhile p ++ b := by
  intro a
  induction a with
  | nil => intro b h; exact absurd rfl h
  | cons c t ih =>
    intro b h
    by_cases hc : p c = true
    · have h2 : t.dropWhile p ≠ [] := by
        rw [show (c :: t).dropWhile p = t.dropWhile p by simp [List.dropWhile, hc]] at h
        exact h
      calc ((c :: t) ++ b).dropWhile p = (t ++ b).dropWhile p := by
            simp [List.dropWhile, hc]
        _ = t.dropWhile p ++ b := ih b h2
        _ = (c :: t).dropWhile p ++ b := by simp [List.dropWhile, hc]
    · have hc' : p c = false := by simpa using hc
      simp [List.dropWhile, hc']

theorem stripRight_append {x y : List Char} (h : stripRight y ≠ []) :
    stripRight (x ++ y) = x ++ stripRight y := by
  have h' : y.reverse.dropWhile pyIsSpace ≠ [] := by
    intro he
    exact h (by simp [stripRight, he])
  unfold stripRight
  rw [List.reverse_append, dropWhile_append_of_ne_nil y.reverse x.reverse h',
    List.reverse_append, List.reverse_reverse]

theorem dropWhile_eq_self_of_false {p : Char → Bool} {l : List Char}
    (h : ∀ c ∈ l, p c = false) : l.dropWhile p = l := by
  cases l with
  | nil => rfl
  | cons c t => simp [List.dropWhile, h c (List.mem_cons_self c t)]

theorem stripRight_of_nonspace {x : List Char} (h : ∀ c ∈ x, pyIsSpace c = false) :
    stripRight x = x := by
  unfold stripRight
  rw [dropWhile_eq_self_of_false (fun c hc => h c (List.mem_reverse.1 hc)),
    List.reverse_reverse]

theorem stripRight_append_space (x : List Char) :
    stripRight (x ++ [' ']) = stripRight x := by
  unfold stripRight
  rw [List.reverse_append]
  have hsp : pyIsSpace ' ' = true := by decide
  simp [List.dropWhile, hsp]

theorem joinWords_cons (a w : List Char) (rest : List (List Char)) :
    joinWords (a :: w :: rest) = a ++ ' ' :: joinWords (w :: rest) := rfl

theorem joinWords_ne_nil {w : List Char} (hw : w ≠ []) (rest : List (List Char)) :
    joinWords (w :: rest) ≠ [] := by
  cases rest with
  | nil => simpa [joinWords] using hw
  | cons w2 r => simp [joinWords_cons, hw]

theorem squeeze_words_main : ∀ l : List Char,
    (stripRight (squeeze true l) = joinWords (wordsAux [] l)) ∧
    (∀ cur : List Char, cur ≠ [] → (∀ c ∈ cur, pyIsSpace c = false) →
      stripRight (cur.reverse ++ squeeze false l) = joinWords (wordsAux cur l)) := by
  intro l
  induction l with
  | nil =>
    constructor
    · rfl
    · intro cur hne hns
      rw [show squeeze false [] = [] from rfl, List.append_nil,
        show wordsAux cur [] = [cur.reverse] by simp [wordsAux, hne],
        show joinWords [cur.reverse] = cur.reverse from rfl]
      exact stripRight_of_nonspace (fun c hc => hns c (List.mem_reverse.1 hc))
  | cons c cs ih =>
    by_cases h : pyIsSpace c = true
    · constructor
      · rw [squeeze_cons_space_t h, wordsAux_cons_space_nil h]
        exact ih.1
      · intro cur hne hns
        rw [squeeze_cons_space_f h, wordsAux_cons_space h hne]
        cases h0 : wordsAux [] cs with
        | nil =>
          rw [squeeze_true_of_no_words cs h0,
            show joinWords [cur.reverse] = cur.reverse from rfl]
          have : cur.reverse ++ [' '] = cur.reverse ++ ' ' :: ([] : List Char) := rfl
          rw [← this, stripRight_append_space]
          exact stripRight_of_nonspace (fun d hd => hns d (List.mem_reverse.1 hd))
        | cons w rest =>
          have hw : w ≠ [] := wordsAux_mem_ne_nil cs [] w (h0 ▸ List.mem_cons_self w rest)
          have hsr : stripRight (squeeze true cs) = joinWords (w :: rest) := by
            rw [← h0]; exact ih.1
          have hne2 : stripRight (squeeze true cs) ≠ [] := by
            rw [hsr]; exact joinWords_ne_nil hw rest
          calc stripRight (cur.reverse ++ ' ' :: squeeze true cs)
              = stripRight ((cur.reverse ++ [' ']) ++ squeeze true cs) := by
                rw [List.append_assoc]; rfl
            _ = (cur.reverse ++ [' ']) ++ stripRight (squeeze true cs) :=
                stripRight_append hne2
            _ = cur.reverse ++ ' ' :: joinWords (w :: rest) := by
                rw [hsr, List.append_assoc]; rfl
            _ = joinWords (cur.reverse :: w :: rest) := (joinWords_cons _ _ _).symm
    · have h' : pyIsSpace c = false := by simpa using h
      constructor
      · rw [squeeze_cons_nonspace h' true cs, wordsAux_cons_nonspace h' [] cs]
        have := ih.2 [c] (by simp) (by intro d hd; simp at hd; subst hd; exact h')
        simpa using this
      · intro cur hne hns
        rw [squeeze_cons_nonspace h' false cs, wordsAux_cons_nonspace h' cur cs]
        have := ih.2 (c :: cur) (by simp)
          (by
            intro d hd
            rcases List.mem_cons.1 hd with rfl | hd2
            · exact h'
            · exact hns d hd2)
        rw [← this]
        rw [show (c :: cur).reverse = cur.reverse ++ [c] by simp, List.append_assoc]
        rfl

theorem pyStrip_squeeze (l : List Char) :
    pyStrip (squeeze false l) = joinWords (pySplitWs l) := by
  unfold pyStrip stripLeft pySplitWs
  rw [dropWhile_squeeze_false]
  exact (squeeze_words_main l).1

/-! ### Claim C9 -/

/-- Claim C9, counterexample.  The claim says every character that is neither
alphanumeric nor whitespace is replaced with a space; but the source's regex
class is `[^\w\s]` and `\w` keeps the underscore, which is not alphanumeric:
`normalize_text("a_b")` is `"a_b"`, not `"a b"`. -/
theorem c9_counterexample :
    normalize_text (some "a_b") = "a_b" ∧ "a_b" ≠ "a b" ∧
      '_'.isAlphanum = false ∧ pyIsSpace '_' = false := by
  exact ⟨by decide, by decide, by decide, by decide⟩

/-- Claim C9, amended: `normalize_text` maps `None` to `""` and never fails;
for a string input it lowercases, replaces every character that is neither a
word character (alphanumeric or underscore) nor whitespace with a space,
collapses consecutive whitespace to a single space and trims the ends —
equivalently, it joins the whitespace-separated words of the character-mapped
lowercased text with single spaces. -/
theorem c9_normalize_contract :
    normalize_text none = "" ∧ ∀ s : String, normalize_text (some s) = normalizeSpec s := by
  refine ⟨rfl, fun s => ?_⟩
  unfold normalize_text normalizeSpec
  exact congrArg String.mk (pyStrip_squeeze ((s.data.map Char.toLower).map mapWordChar))

/-! ### Claim C10 -/

/-- Claim C10: through `get_ai_recommendations`, the `cart`, `checkout` and
`post_purchase` contexts score against an empty cart/order list, so the
result is independent of `product_id` and `user_id`, equals the respective
upsell function applied to the empty list, and the cart-context score of any
candidate degenerates to its price/badge/rating bonuses — the category- and
tag-overlap bonuses never apply. -/
theorem c10_ai_empty_cart (products : List UProduct)
    (pid1 pid2 uid1 uid2 : Option Nat) (lim : Nat) (ctx : String) (p : UProduct)
    (hctx : ctx = "cart" ∨ ctx = "checkout" ∨ ctx = "post_purchase") :
    get_ai_recommendations products pid1 uid1 ctx lim =
      get_ai_recommendations products pid2 uid2 ctx lim ∧
    get_ai_recommendations products pid1 uid1 "cart" lim =
      get_cart_upsells products [] lim ∧
    get_ai_recommendations products pid1 uid1 "checkout" lim =
      get_checkout_upsells products [] lim ∧
    get_ai_recommendations products pid1 uid1 "post_purchase" lim =
      get_post_purchase_upsells products [] lim ∧
    cartItemScore [] [] p =
      (if p.price.getD 0 < 20 then 25 else if p.price.getD 0 < 40 then 15 else 0) +
      (if p.badge = some "Bestseller" ∨ p.badge = some "Hot" ∨ p.badge = some "Trending"
        then 10 else 0) +
      (if (9/2 : ℚ) ≤ p.rating.getD 0 then 10 else 0) := by
  refine ⟨?_, ?_, ?_, ?_, ?_⟩
  · rcases hctx with rfl | rfl | rfl <;> simp [get_ai_recommendations]
  · simp [get_ai_recommendations]
  · simp [get_ai_recommendations]
  · simp [get_ai_recommendations]
  · unfold cartItemScore
    have hfil : p.tags.dedup.filter (fun t => ([] : List String).contains t) = [] := by
      simp [List.contains]
    simp [hfil]
    cases p.category <;> rfl

/-- Claim C10, witness. -/
theorem c10_ai_empty_cart_witness :
    get_ai_recommendations [fuPopular] (some 3) (some 4) "cart" 3 =
      get_ai_recommendations [fuPopular] (some 5) none "cart" 3 :=
  (c10_ai_empty_cart [fuPopular] (some 3) (some 5) (some 4) none 3 "cart" fuPopular
    (Or.inl rfl)).1

/-! ### Claim C3 -/

/-- The `(product, score)` ranking used by every recommender: scoring a list
with `f`, sorting descending by score (stably) and truncating yields a list
that is pairwise descending in `f`. -/
theorem sortPairs_take_map_pairwise (f : UProduct → ℚ) (l : List UProduct) (lim : Nat) :
    ((((sortPairsDesc (l.map (fun p => (p, f p)))).take lim).map (fun c => c.1)).Pairwise
      (fun a b => f b ≤ f a)) := by
  have htot : ∀ x y : UProduct × ℚ, decide (y.2 ≤ x.2) = true ∨ decide (x.2 ≤ y.2) = true := by
    intro x y
    rcases le_total y.2 x.2 with h | h
    · exact Or.inl (decide_eq_true h)
    · exact Or.inr (decide_eq_true h)
  have htr : ∀ x y z : UProduct × ℚ, decide (y.2 ≤ x.2) = true → decide (z.2 ≤ y.2) = true →
      decide (z.2 ≤ x.2) = true := by
    intro x y z h1 h2
    exact decide_eq_true (le_trans (of_decide_eq_true h2) (of_decide_eq_true h1))
  have hsort := pySort_pairwise htot htr (l.map (fun p => (p, f p)))
  have htake := hsort.sublist (List.take_sublist lim _)
  have hscore : ∀ x ∈ (sortPairsDesc (l.map (fun p => (p, f p)))).take lim, x.2 = f x.1 := by
    intro x hx
    have hmem : x ∈ l.map (fun p => (p, f p)) := mem_pySort.1 (List.mem_of_mem_take hx)
    obtain ⟨q, _, rfl⟩ := List.mem_map.1 hmem
    rfl
  rw [List.pairwise_map]
  exact htake.imp_of_mem (by
    intro a b ha hb hr
    have := of_decide_eq_true hr
    rw [hscore a ha, hscore b hb] at this
    exact this)

/-- Claim C3, counterexample.  The claim has the fallback fire whenever no
candidate scores above zero; but with the seed as the only catalog entry
there are no candidates at all (so, vacuously, none scores above zero), yet
`get_upsells_for_product` returns `[]` rather than the popularity ranking
(which would contain the seed itself). -/
theorem c3_counterexample :
    get_upsells_for_product [fuSeedOnly] (some 1) 3 = [] ∧
    get_popular_products [fuSeedOnly] 3 = [fuSeedOnly] ∧
    ([] : List UProduct) ≠ [fuSeedOnly] := by
  refine ⟨by with_unfolding_all rfl, by with_unfolding_all rfl, by decide⟩

/-- Claim C3, amended: `get_upsells_for_product` falls back to the popularity
ranking exactly when the seed id is absent from the catalog (when the seed is
present it returns the similarity-ranked candidates, even if all their scores
are zero or there are none); the popularity ranking consists of published
products ordered descending by `rating*20 + reviews_count/10 + (50 if the
badge is "Bestseller")`, and neither path can fail. -/
theorem c3_fallback (products : List UProduct) (pid : Option Nat) (lim : Nat)
    (hnone : products.find? (fun p => decide (p.id = pid)) = none) :
    get_upsells_for_product products pid lim = get_popular_products products lim ∧
    (get_popular_products products lim).Pairwise (fun a b =>
      (b.rating.getD 0) * 20 + (b.reviews_count.getD 0) / 10 +
          (if b.badge = some "Bestseller" then 50 else 0) ≤
        (a.rating.getD 0) * 20 + (a.reviews_count.getD 0) / 10 +
          (if a.badge = some "Bestseller" then 50 else 0)) := by
  constructor
  · unfold get_upsells_for_product
    rw [hnone]
  · exact sortPairs_take_map_pairwise
      (fun p => (p.rating.getD 0) * 20 + (p.reviews_count.getD 0) / 10 +
        (if p.badge = some "Bestseller" then 50 else 0))
      (products.filter (fun p => p.published.getD true)) lim

/-- Claim C3, witness. -/
theorem c3_fallback_witness :
    get_upsells_for_product [fuPopular] (some 99) 3 = get_popular_products [fuPopular] 3 :=
  (c3_fallback [fuPopular] (some 99) 3 (by decide)).1

/-! ### Claim C2 -/

/-- Claim C2, counterexample.  When the seed id is absent, the popularity
fallback only excludes unpublished products: with a catalog consisting of one
out-of-stock product and a nonexistent seed id, the result contains a product
with `stock <= 0`. -/
theorem c2_counterexample :
    get_upsells_for_product [fuOos] (some 2) 3 = [fuOos] ∧ fuOos.stock.getD 0 ≤ 0 := by
  exact ⟨by with_unfolding_all rfl, by decide⟩

/-- Claim C2, amended: every product returned by `get_upsells_for_product`
has an id different from the seed id and is published; the `stock <= 0`
exclusion additionally holds whenever the seed id is present in the catalog —
the popularity fallback (seed absent) does not filter by stock. -/
theorem c2_exclusions (products : List UProduct) (pid : Option Nat) (lim : Nat)
    (p : UProduct) (hp : p ∈ get_upsells_for_product products pid lim) :
    ¬ p.id = pid ∧ p.published.getD true = true ∧
      ((products.find? (fun q => decide (q.id = pid))).isSome = true →
        (0 : ℤ) < p.stock.getD 0) := by
  unfold get_upsells_for_product at hp
  cases hfind : products.find? (fun q => decide (q.id = pid)) with
  | none =>
    rw [hfind] at hp
    unfold get_popular_products at hp
    obtain ⟨pair, htake, hfst⟩ := List.mem_map.1 hp
    have hscored := mem_pySort.1 (List.mem_of_mem_take htake)
    obtain ⟨q, hq, hpq⟩ := List.mem_map.1 hscored
    have hqp : q = p := by rw [← hpq] at hfst; exact hfst
    subst hqp
    have hqf := List.mem_filter.1 hq
    refine ⟨?_, hqf.2, ?_⟩
    · have := List.find?_eq_none.1 hfind q hqf.1
      simpa using this
    · intro habs
      simp at habs
  | some source =>
    rw [hfind] at hp
    obtain ⟨pair, htake, hfst⟩ := List.mem_map.1 hp
    have hscored := mem_pySort.1 (List.mem_of_mem_take htake)
    obtain ⟨q, hq, hpq⟩ := List.mem_map.1 hscored
    have hqp : q = p := by rw [← hpq] at hfst; exact hfst
    subst hqp
    have hqf := List.mem_filter.1 hq
    have hcond := hqf.2
    rw [Bool.and_eq_true, Bool.and_eq_true] at hcond
    refine ⟨?_, hcond.1.2, fun _ => ?_⟩
    · exact of_decide_eq_true hcond.1.1
    · exact of_decide_eq_true hcond.2

/-- Claim C2, witness (main path: seed present). -/
theorem c2_exclusions_witness :
    ¬ fuCand.id = some 1 ∧ fuCand.published.getD true = true ∧
      ((([fuSeed, fuCand] : List UProduct).find?
          (fun q => decide (q.id = some 1))).isSome = true →
        (0 : ℤ) < fuCand.stock.getD 0) :=
  c2_exclusions [fuSeed, fuCand] (some 1) 3 fuCand (by with_unfolding_all decide)

/-! ### Claim C7 -/

/-- For positive prices, `calculate_similarity_score` splits into a part not
depending on the candidate price plus the price-proximity bonus
`max 0 (20 - |p1 - c| / max p1 c * 40)`. -/
theorem calc_sim_price_split (p1 p2 : UProduct) (c : ℚ)
    (hs : 0 < p1.price.getD 0) (hc : 0 < c) :
    calculate_similarity_score p1 { p2 with price := some c } =
      ((if p1.category = p2.category then 30 else 0) +
        (if !p1.tags.dedup.isEmpty && !p2.tags.dedup.isEmpty then
          ((p1.tags.dedup.filter (fun t => p2.tags.dedup.contains t)).length : ℚ) /
            (((p1.tags ++ p2.tags).dedup).length : ℚ) * 40
        else 0) +
        (if (9/2 : ℚ) ≤ p2.rating.getD 0 then 10
          else if (4 : ℚ) ≤ p2.rating.getD 0 then 5 else 0)) +
      max 0 (20 - |p1.price.getD 0 - c| / max (p1.price.getD 0) c * 40) := by
  unfold calculate_similarity_score
  simp only [Option.getD_some]
  rw [if_pos (show (0:ℚ) < p1.price.getD 0 ∧ (0:ℚ) < c from ⟨hs, hc⟩)]
  ring

/-- Claim C7, counterexample.  The claim's measure is
`|candidate.price - seed.price| / seed.price`, but the source divides by the
larger of the two prices.  With seed price 10, candidate prices 4 and 17 have
claim-measures 0.6 < 0.7 — both beyond the claimed ~50% floor — yet the
similarity score strictly increases from 30 to 30 + 60/17, refuting both the
strict decrease and the constancy beyond the floor. -/
theorem c7_counterexample :
    |(4 : ℚ) - 10| / 10 < |(17 : ℚ) - 10| / 10 ∧
    (1/2 : ℚ) ≤ |(4 : ℚ) - 10| / 10 ∧ (1/2 : ℚ) ≤ |(17 : ℚ) - 10| / 10 ∧
    calculate_similarity_score fuP1 { price := some 4 } <
      calculate_similarity_score fuP1 { price := some 17 } := by
  refine ⟨by norm_num [abs], by norm_num [abs], by norm_num [abs], ?_⟩
  with_unfolding_all decide

/-- Claim C7, amended: for a fixed seed with positive price and candidates
identical except for their positive price, the similarity score strictly
decreases as `|candidate - seed| / max(seed, candidate)` — the relative
difference measured against the larger of the two prices — increases, until
that measure reaches 1/2, beyond which the proximity bonus is 0 and the score
is constant.  (In terms of the claim's measure `d = |c - s|/s` this means
strict decrease until `d = 1/2` below the seed price but until `d = 1` above
it.) -/
theorem c7_price_proximity (p1 p2 : UProduct) (c1 c2 : ℚ)
    (hs : 0 < p1.price.getD 0) (h1 : 0 < c1) (h2 : 0 < c2) :
    (|p1.price.getD 0 - c1| / max (p1.price.getD 0) c1 <
        |p1.price.getD 0 - c2| / max (p1.price.getD 0) c2 →
      |p1.price.getD 0 - c2| / max (p1.price.getD 0) c2 ≤ 1/2 →
      calculate_similarity_score p1 { p2 with price := some c2 } <
        calculate_similarity_score p1 { p2 with price := some c1 }) ∧
    (1/2 ≤ |p1.price.getD 0 - c1| / max (p1.price.getD 0) c1 →
      1/2 ≤ |p1.price.getD 0 - c2| / max (p1.price.getD 0) c2 →
      calculate_similarity_score p1 { p2 with price := some c1 } =
        calculate_similarity_score p1 { p2 with price := some c2 }) := by
  rw [calc_sim_price_split p1 p2 c1 hs h1, calc_sim_price_split p1 p2 c2 hs h2]
  set d1 := |p1.price.getD 0 - c1| / max (p1.price.getD 0) c1 with hd1
  set d2 := |p1.price.getD 0 - c2| / max (p1.price.getD 0) c2 with hd2
  constructor
  · intro hlt hle
    have e2 : max (0 : ℚ) (20 - d2 * 40) = 20 - d2 * 40 := by
      apply max_eq_right; linarith
    have e1 : max (0 : ℚ) (20 - d1 * 40) = 20 - d1 * 40 := by
      apply max_eq_right; linarith
    rw [e1, e2]
    linarith
  · intro hge1 hge2
    have e1 : max (0 : ℚ) (20 - d1 * 40) = 0 := by
      apply max_eq_left; linarith
    have e2 : max (0 : ℚ) (20 - d2 * 40) = 0 := by
      apply max_eq_left; linarith
    rw [e1, e2]

/-- Claim C7, witness (both claim-measures below the floor band). -/
theorem c7_price_proximity_witness :
    calculate_similarity_score fuP1 { price := some 8 } <
      calculate_similarity_score fuP1 { price := some 9 } :=
  (c7_price_proximity fuP1 {} 9 8 (by with_unfolding_all decide) (by norm_num)
    (by norm_num)).1 (by with_unfolding_all decide) (by with_unfolding_all decide)

/-! ### Facts about the filter stage -/

theorem filter_category_sublist (products : List SProduct) (copt : Option String) :
    (filter_category products copt).Sublist products := by
  cases copt with
  | none => exact List.Sublist.refl _
  | some c =>
    by_cases hc : c = ""
    · simp only [filter_category, if_pos hc]
      exact List.Sublist.refl _
    · simp only [filter_category, if_neg hc]
      exact List.filter_sublist _

theorem filter_animal_sublist (products : List SProduct) (aopt : Option String) :
    (filter_animal products aopt).Sublist products := by
  cases aopt with
  | none => exact List.Sublist.refl _
  | some a =>
    by_cases ha : a = ""
    · simp only [filter_animal, if_pos ha]
      exact List.Sublist.refl _
    · simp only [filter_animal, if_neg ha]
      exact List.filter_sublist _

theorem filter_price_min_sublist (products : List SProduct) (vopt : Option PyVal)
    (l : List SProduct) (h : filter_price_min products vopt = .ok l) :
    l.Sublist products := by
  cases vopt with
  | none =>
    simp only [filter_price_min] at h
    cases h
    exact List.Sublist.refl _
  | some v =>
    simp only [filter_price_min] at h
    cases hf : pyFloat v with
    | error e => rw [hf] at h; cases h
    | ok m =>
      rw [hf] at h
      cases h
      exact List.filter_sublist _

theorem filter_price_max_sublist (products : List SProduct) (vopt : Option PyVal)
    (l : List SProduct) (h : filter_price_max products vopt = .ok l) :
    l.Sublist products := by
  cases vopt with
  | none =>
    simp only [filter_price_max] at h
    cases h
    exact List.Sublist.refl _
  | some v =>
    simp only [filter_price_max] at h
    cases hf : pyFloat v with
    | error e => rw [hf] at h; cases h
    | ok m =>
      rw [hf] at h
      cases h
      exact List.filter_sublist _

theorem filter_has_images_sublist (products : List SProduct) (b : Bool) :
    (filter_has_images products b).Sublist products := by
  unfold filter_has_images
  cases b with
  | false => exact List.Sublist.refl _
  | true => exact List.filter_sublist _

/-- A successful `apply_filters` returns a sublist of its input. -/
theorem apply_filters_sublist (products : List SProduct) (fl : Filters)
    (l : List SProduct) (h : apply_filters products fl = .ok l) :
    l.Sublist products := by
  unfold apply_filters at h
  by_cases hd : fl = ⟨none, none, none, none, false⟩
  · rw [if_pos hd] at h
    cases h
    exact List.Sublist.refl _
  · rw [if_neg hd] at h
    simp only [] at h
    cases h3 : filter_price_min (filter_animal (filter_category products fl.category)
        fl.animal) fl.price_min with
    | error e => rw [h3] at h; cases h
    | ok f3 =>
      rw [h3] at h
      simp only [] at h
      cases h4 : filter_price_max f3 fl.price_max with
      | error e => rw [h4] at h; cases h
      | ok f4 =>
        rw [h4] at h
        simp only [] at h
        cases h
        exact ((((filter_has_images_sublist f4 fl.has_images).trans
          (filter_price_max_sublist f3 fl.price_max f4 h4)).trans
          (filter_price_min_sublist _ fl.price_min f3 h3)).trans
          (filter_animal_sublist _ fl.animal)).trans
          (filter_category_sublist products fl.category)

/-- `apply_filters` on an empty catalog can only succeed with an empty
result. -/
theorem apply_filters_nil (fl : Filters) (l : List SProduct)
    (h : apply_filters [] fl = .ok l) : l = [] :=
  List.sublist_nil.1 (apply_filters_sublist [] fl l h)

/-! ### Claim C1 -/

theorem fuzzy_match_empty_query (t : String) : fuzzy_match "" t = 0 := by
  simp [fuzzy_match]

theorem strIn_empty_needle (h : String) : strIn "" h = true := by
  rw [strIn, List.any_eq_true]
  have hpre : ∀ l : List Char, ([] : List Char).isPrefixOf l = true := by
    intro l; cases l <;> rfl
  exact ⟨0, by simp, hpre _⟩

theorem foldl_fuzzy_empty (w : ℚ) (xs : List String) (base : ℚ) :
    xs.foldl (fun s x => s + fuzzy_match "" x * w) base = base := by
  induction xs generalizing base with
  | nil => rfl
  | cons x xs ih =>
    rw [List.foldl_cons, fuzzy_match_empty_query]
    rw [show base + 0 * w = base by ring]
    exact ih base

/-- The score dictionary lookup for a catalog member returns the relevance of
some catalog product with the same id (the last one written). -/
theorem dictGetQ_scoresListOf_exists (products : List SProduct) (query : String)
    (p : SProduct) (hp : p ∈ products) :
    ∃ q ∈ products, q.id = p.id ∧
      dictGetQ (scoresListOf products query) p.id = calculate_relevance q query := by
  cases hfind : (scoresListOf products query).reverse.find? (fun kv => kv.1 = p.id) with
  | none =>
    exfalso
    have hmem : (p.id, calculate_relevance p query) ∈ (scoresListOf products query).reverse := by
      rw [List.mem_reverse]
      exact List.mem_map_of_mem (fun q => (q.id, calculate_relevance q query)) hp
    have := List.find?_eq_none.1 hfind _ hmem
    simp at this
  | some kv =>
    have hkv : kv ∈ scoresListOf products query :=
      List.mem_reverse.1 (List.mem_of_find?_eq_some hfind)
    obtain ⟨q, hq, hqkv⟩ := List.mem_map.1 hkv
    have hkey : kv.1 = p.id := by
      have := List.find?_some hfind
      simpa using this
    refine ⟨q, hq, ?_, ?_⟩
    · rw [← hkey, ← hqkv]
    · rw [dictGetQ, hfind, ← hqkv]

/-- Claim C1, counterexample.  The claim requires `results = []` and
`total = 0` for the empty query; on a one-product catalog the empty query in
fact matches the product (score 105 from the trivial substring bonuses) and
`total = 1`. -/
theorem c1_counterexample :
    search_products [fxDog] "" fxNoFilters "relevance" 50
      = .ok ⟨[fxDog], 1, "", some fxNoFilters, some "relevance"⟩ ∧ (1 : ℕ) ≠ 0 := by
  exact ⟨by with_unfolding_all rfl, by decide⟩

/-- Claim C1, amended: a query whose normalized form is empty (empty,
whitespace-only, or punctuation-only) matches EVERY product, not none: the
substring bonuses `+50` (title), `+25` (category) and `+30` (animal) hold
trivially, so every product scores at least 105 ≥ the threshold 10, no
product is dropped by the relevance stage, and `search_products` reports
`total` equal to the number of products passing the filter stage. -/
theorem c1_empty_query (products : List SProduct) (query : String) (fl : Filters)
    (sb : String) (lim : Nat) (p : SProduct) (l : List SProduct) (res : SearchResult)
    (hq : normalize_text (some query) = "") :
    105 ≤ calculate_relevance p query ∧
    (apply_filters products fl = .ok l →
      search_products products query fl sb lim = .ok res → res.total = l.length) := by
  have hscore : ∀ q : SProduct, 105 ≤ calculate_relevance q query := by
    intro q
    unfold calculate_relevance
    rw [hq]
    simp only []
    rw [fuzzy_match_empty_query, strIn_empty_needle, fuzzy_match_empty_query,
      strIn_empty_needle, strIn_empty_needle, foldl_fuzzy_empty, foldl_fuzzy_empty]
    by_cases hi : q.images.isEmpty = true
    · rw [if_pos hi]; norm_num
    · rw [if_neg hi]; norm_num
  refine ⟨hscore p, fun happ hsearch => ?_⟩
  unfold search_products at hsearch
  by_cases he : products.isEmpty = true
  · rw [if_pos he] at hsearch
    injection hsearch with hres
    have hpnil : products = [] := by
      cases products with
      | nil => rfl
      | cons a as => simp [List.isEmpty] at he
    subst hpnil
    have : l = [] := apply_filters_nil fl l happ
    subst this
    rw [← hres]
    rfl
  · rw [if_neg he] at hsearch
    simp only [] at hsearch
    have hmatch : products.filter
        (fun q => decide (10 ≤ dictGetQ (scoresListOf products query) q.id)) = products := by
      apply List.filter_eq_self.2
      intro q hq2
      obtain ⟨q', _, _, heq⟩ := dictGetQ_scoresListOf_exists products query q hq2
      rw [decide_eq_true_eq, heq]
      linarith [hscore q']
    rw [hmatch, happ] at hsearch
    simp only [] at hsearch
    injection hsearch with hres
    rw [← hres]

/-- Claim C1, witness (whitespace-only query on a one-product catalog). -/
theorem c1_empty_query_witness :
    105 ≤ calculate_relevance fxDog " " ∧
    (apply_filters [fxDog] fxNoFilters = .ok [fxDog] →
      search_products [fxDog] " " fxNoFilters "relevance" 50 =
        .ok ⟨[fxDog], 1, " ", some fxNoFilters, some "relevance"⟩ →
      (⟨[fxDog], 1, " ", some fxNoFilters, some "relevance"⟩ : SearchResult).total
        = [fxDog].length) :=
  c1_empty_query [fxDog] " " fxNoFilters "relevance" 50 fxDog [fxDog]
    ⟨[fxDog], 1, " ", some fxNoFilters, some "relevance"⟩ (by decide)

/-! ### Claim C4 -/

/-- With unique ids (the catalog invariant of the data model), the score
dictionary lookup for a catalog member is exactly its relevance score. -/
theorem dictGetQ_scoresListOf_nodup (products : List SProduct) (query : String)
    (p : SProduct) (hids : (products.map (fun q => q.id)).Nodup) (hp : p ∈ products) :
    dictGetQ (scoresListOf products query) p.id = calculate_relevance p query := by
  induction products with
  | nil => cases hp
  | cons a rest ih =>
    rw [List.map_cons, List.nodup_cons] at hids
    have hsl : (scoresListOf (a :: rest) query).reverse
        = (scoresListOf rest query).reverse ++ [(a.id, calculate_relevance a query)] := by
      rw [show scoresListOf (a :: rest) query
          = (a.id, calculate_relevance a query) :: scoresListOf rest query from rfl,
        List.reverse_cons]
    rcases List.mem_cons.1 hp with rfl | hp2
    · have hnone : (scoresListOf rest query).reverse.find? (fun kv => kv.1 = p.id) = none := by
        rw [List.find?_eq_none]
        intro kv hkv
        obtain ⟨q, hq, rfl⟩ := List.mem_map.1 (List.mem_reverse.1 hkv)
        intro hdec
        have hqid : q.id = p.id := of_decide_eq_true hdec
        exact hids.1 (hqid ▸ List.mem_map_of_mem (fun r => r.id) hq)
      rw [dictGetQ, hsl, List.find?_append, hnone, Option.none_or]
      have : List.find? (fun kv => kv.1 = p.id) [(p.id, calculate_relevance p query)]
          = some (p.id, calculate_relevance p query) := by
        simp [List.find?]
      rw [this]
    · cases hf : (scoresListOf rest query).reverse.find? (fun kv => kv.1 = p.id) with
      | none =>
        exfalso
        have hmem : (p.id, calculate_relevance p query) ∈ (scoresListOf rest query).reverse := by
          rw [List.mem_reverse]
          exact List.mem_map_of_mem (fun q => (q.id, calculate_relevance q query)) hp2
        have := List.find?_eq_none.1 hf _ hmem
        simp at this
      | some kv =>
        rw [dictGetQ, hsl, List.find?_append, hf]
        have hrest : dictGetQ (scoresListOf rest query) p.id = kv.2 := by
          rw [dictGetQ, hf]
        rw [show (some kv).or (List.find? (fun kv => kv.1 = p.id)
            [(a.id, calculate_relevance a query)]) = some kv from rfl]
        show kv.2 = calculate_relevance p query
        rw [← hrest]
        exact ih hids.2 hp2

/-- Claim C4: with sort key `relevance`, every product scoring below the
threshold 10 is excluded, the results are in descending relevance order, and
equal-score products keep their catalog order (formally: for every score
value `k`, the equal-score subsequence of the results is a subsequence of the
catalog's).  Stated under the data model's invariant that ids are unique. -/
theorem c4_relevance_pipeline (products : List SProduct) (query : String) (fl : Filters)
    (lim : Nat) (res : SearchResult)
    (hids : (products.map (fun p => p.id)).Nodup)
    (hres : search_products products query fl "relevance" lim = .ok res) :
    (∀ p ∈ products, calculate_relevance p query < 10 → ¬ p ∈ res.results) ∧
    res.results.Pairwise
      (fun a b => calculate_relevance b query ≤ calculate_relevance a query) ∧
    ∀ k : ℚ, (res.results.filter (fun p => decide (calculate_relevance p query = k))).Sublist
      (products.filter (fun p => decide (calculate_relevance p query = k))) := by
  have htot : ∀ a b : SProduct,
      decide (dictGetQ (scoresListOf products query) b.id ≤
        dictGetQ (scoresListOf products query) a.id) = true ∨
      decide (dictGetQ (scoresListOf products query) a.id ≤
        dictGetQ (scoresListOf products query) b.id) = true := by
    intro a b
    rcases le_total (dictGetQ (scoresListOf products query) b.id)
        (dictGetQ (scoresListOf products query) a.id) with h | h
    · exact Or.inl (decide_eq_true h)
    · exact Or.inr (decide_eq_true h)
  have htr : ∀ a b c : SProduct,
      decide (dictGetQ (scoresListOf products query) b.id ≤
        dictGetQ (scoresListOf products query) a.id) = true →
      decide (dictGetQ (scoresListOf products query) c.id ≤
        dictGetQ (scoresListOf products query) b.id) = true →
      decide (dictGetQ (scoresListOf products query) c.id ≤
        dictGetQ (scoresListOf products query) a.id) = true := by
    intro a b c h1 h2
    exact decide_eq_true (le_trans (of_decide_eq_true h2) (of_decide_eq_true h1))
  unfold search_products at hres
  by_cases he : products.isEmpty = true
  · rw [if_pos he] at hres
    injection hres with hr
    refine ⟨fun p _ _ hmem => ?_, ?_, fun k => ?_⟩
    · rw [← hr] at hmem
      simp at hmem
    · rw [← hr]
      exact List.Pairwise.nil
    · rw [← hr]
      show (List.filter _ []).Sublist _
      simp
  · rw [if_neg he] at hres
    simp only [] at hres
    cases happ : apply_filters (products.filter
        (fun p => decide (10 ≤ dictGetQ (scoresListOf products query) p.id))) fl with
    | error e => rw [happ] at hres; cases hres
    | ok filtered =>
      rw [happ] at hres
      simp only [] at hres
      have hscne : (scoresListOf products query).isEmpty = false := by
        cases products with
        | nil => simp [List.isEmpty] at he
        | cons a as => rfl
      have hsorteq : sort_products filtered "relevance" (scoresListOf products query)
          = pySort (fun a b => decide (dictGetQ (scoresListOf products query) b.id ≤
              dictGetQ (scoresListOf products query) a.id)) filtered := by
        unfold sort_products
        rw [if_pos]
        simp [hscne]
      rw [hsorteq] at hres
      injection hres with hr
      have hmemchain : ∀ x ∈ (pySort (fun a b =>
          decide (dictGetQ (scoresListOf products query) b.id ≤
            dictGetQ (scoresListOf products query) a.id)) filtered).take lim,
          x ∈ products := by
        intro x hx
        have hx2 : x ∈ filtered := mem_pySort.1 (List.mem_of_mem_take hx)
        have hx3 := (apply_filters_sublist _ fl filtered happ).subset hx2
        exact (List.mem_filter.1 hx3).1
      have hkeyrel : ∀ x ∈ (pySort (fun a b =>
          decide (dictGetQ (scoresListOf products query) b.id ≤
            dictGetQ (scoresListOf products query) a.id)) filtered).take lim,
          dictGetQ (scoresListOf products query) x.id = calculate_relevance x query :=
        fun x hx => dictGetQ_scoresListOf_nodup products query x hids (hmemchain x hx)
      refine ⟨fun p hp hlt hmem => ?_, ?_, fun k => ?_⟩
      · rw [← hr] at hmem
        have hx2 : p ∈ filtered := mem_pySort.1 (List.mem_of_mem_take hmem)
        have hx3 := (apply_filters_sublist _ fl filtered happ).subset hx2
        have hge := (List.mem_filter.1 hx3).2
        rw [decide_eq_true_eq, dictGetQ_scoresListOf_nodup products query p hids hp] at hge
        linarith
      · rw [← hr]
        have hpw := pySort_pairwise htot htr filtered
        have htake := hpw.sublist (List.take_sublist lim _)
        exact htake.imp_of_mem (fun {a b} ha hb hr2 => by
          have hle := of_decide_eq_true hr2
          rw [hkeyrel a ha, hkeyrel b hb] at hle
          exact hle)
      · rw [← hr]
        have hcong1 : ((pySort (fun a b =>
            decide (dictGetQ (scoresListOf products query) b.id ≤
              dictGetQ (scoresListOf products query) a.id)) filtered).take lim).filter
              (fun p => decide (calculate_relevance p query = k))
            = ((pySort (fun a b =>
            decide (dictGetQ (scoresListOf products query) b.id ≤
              dictGetQ (scoresListOf products query) a.id)) filtered).take lim).filter
              (fun p => decide (dictGetQ (scoresListOf products query) p.id = k)) :=
          List.filter_congr (fun x hx => by rw [hkeyrel x hx])
        show (List.filter _ _).Sublist _
        rw [hcong1]
        have h1 := (List.take_sublist lim (pySort (fun a b =>
            decide (dictGetQ (scoresListOf products query) b.id ≤
              dictGetQ (scoresListOf products query) a.id)) filtered)).filter
          (fun p => decide (dictGetQ (scoresListOf products query) p.id = k))
        have h2 := pySort_keydesc_filter
          (fun q : SProduct => dictGetQ (scoresListOf products query) q.id) filtered k
        rw [h2] at h1
        have h3 := (apply_filters_sublist _ fl filtered happ).filter
          (fun p => decide (dictGetQ (scoresListOf products query) p.id = k))
        have h4 := (List.filter_sublist (p := fun p =>
            decide (10 ≤ dictGetQ (scoresListOf products query) p.id)) products).filter
          (fun p => decide (dictGetQ (scoresListOf products query) p.id = k))
        have h5 := (h1.trans h3).trans h4
        have hcong2 : products.filter
            (fun p => decide (dictGetQ (scoresListOf products query) p.id = k))
            = products.filter (fun p => decide (calculate_relevance p query = k)) :=
          List.filter_congr (fun x hx => by
            rw [dictGetQ_scoresListOf_nodup products query x hids hx])
        rw [hcong2] at h5
        exact h5

/-- Claim C4, witness. -/
theorem c4_relevance_pipeline_witness :
    List.Pairwise (fun a b => calculate_relevance b "dog" ≤ calculate_relevance a "dog")
      [fxBall] :=
  (c4_relevance_pipeline [fxBall] "dog" fxNoFilters 50
    ⟨[fxBall], 1, "dog", some fxNoFilters, some "relevance"⟩ (by decide)
    (by with_unfolding_all rfl)).2.1

/-! ### Claim C5 -/

/-- Claim C5, counterexample.  The descending price sort uses
`p.get("price") or 0` — the same default 0 as the ascending sort, not 999999:
a missing-price product sorts LAST under `price_high` (as if it were 0),
whereas the claimed 999999 default would sort it first. -/
theorem c5_counterexample :
    sort_products [fxNoPrice, fxPrice5] "price_high" [] = [fxPrice5, fxNoPrice] ∧
    fxNoPrice.price = none ∧
    ¬ List.Pairwise (fun a b => pyOrQ b.price 999999 ≤ pyOrQ a.price 999999)
        (sort_products [fxNoPrice, fxPrice5] "price_high" []) := by
  refine ⟨by with_unfolding_all rfl, rfl, ?_⟩
  intro hpw
  rw [show sort_products [fxNoPrice, fxPrice5] "price_high" [] = [fxPrice5, fxNoPrice]
    from by with_unfolding_all rfl] at hpw
  have habs := (List.pairwise_cons.1 hpw).1 fxNoPrice (by simp)
  have : ¬ (pyOrQ fxNoPrice.price 999999 ≤ pyOrQ fxPrice5.price 999999) := by
    with_unfolding_all decide
  exact this habs

/-- Claim C5, amended: a missing price is treated as 0 in BOTH the ascending
and the descending price sorts (the asymmetric 999999 default applies only to
the `price_max` filter, where a missing price passes the bound iff
`999999 <= bound`). -/
theorem c5_missing_price (l : List SProduct) (scores : List (Option Nat × ℚ))
    (m : ℚ) (p : SProduct) (hp : p ∈ l) (hmp : p.price = none) :
    (sort_products l "price_low" scores).Pairwise
      (fun a b => pyOrQ a.price 0 ≤ pyOrQ b.price 0) ∧
    (sort_products l "price_high" scores).Pairwise
      (fun a b => pyOrQ b.price 0 ≤ pyOrQ a.price 0) ∧
    apply_filters l ⟨none, none, none, some (.num m), false⟩
      = .ok (l.filter (fun q => decide (pyOrQ q.price 999999 ≤ m))) ∧
    (p ∈ l.filter (fun q => decide (pyOrQ q.price 999999 ≤ m)) ↔ 999999 ≤ m) := by
  refine ⟨?_, ?_, ?_, ?_⟩
  · have hsort : sort_products l "price_low" scores
        = pySort (fun a b => decide (pyOrQ a.price 0 ≤ pyOrQ b.price 0)) l := by
      unfold sort_products
      rw [if_neg (by simp), if_pos (by simp)]
    rw [hsort]
    have hpw := @pySort_pairwise SProduct
      (fun a b => decide (pyOrQ a.price 0 ≤ pyOrQ b.price 0))
      (fun a b => by
        rcases le_total (pyOrQ a.price 0) (pyOrQ b.price 0) with h | h
        · exact Or.inl (decide_eq_true h)
        · exact Or.inr (decide_eq_true h))
      (fun a b c h1 h2 =>
        decide_eq_true (le_trans (of_decide_eq_true h1) (of_decide_eq_true h2))) l
    exact hpw.imp (fun h => of_decide_eq_true h)
  · have hsort : sort_products l "price_high" scores
        = pySort (fun a b => decide (pyOrQ b.price 0 ≤ pyOrQ a.price 0)) l := by
      unfold sort_products
      rw [if_neg (by simp), if_neg (by simp), if_pos (by simp)]
    rw [hsort]
    have hpw := @pySort_pairwise SProduct
      (fun a b => decide (pyOrQ b.price 0 ≤ pyOrQ a.price 0))
      (fun a b => by
        rcases le_total (pyOrQ b.price 0) (pyOrQ a.price 0) with h | h
        · exact Or.inl (decide_eq_true h)
        · exact Or.inr (decide_eq_true h))
      (fun a b c h1 h2 =>
        decide_eq_true (le_trans (of_decide_eq_true h2) (of_decide_eq_true h1))) l
    exact hpw.imp (fun h => of_decide_eq_true h)
  · rfl
  · rw [List.mem_filter]
    constructor
    · intro h
      have := h.2
      rw [hmp] at this
      exact of_decide_eq_true this
    · intro h
      refine ⟨hp, ?_⟩
      rw [hmp]
      exact decide_eq_true h

/-- Claim C5, witness. -/
theorem c5_missing_price_witness :
    fxNoPrice ∈ ([fxNoPrice, fxPrice5] : List SProduct).filter
        (fun q => decide (pyOrQ q.price 999999 ≤ (3 : ℚ))) ↔ (999999 : ℚ) ≤ 3 :=
  (c5_missing_price [fxNoPrice, fxPrice5] [] 3 fxNoPrice (by decide) rfl).2.2.2

/-! ### Claim C6 -/

/-- Claim C6, counterexample.  (a) With an empty catalog a non-numeric
`price_min` bound is never looked at: the request succeeds (no boundary
rejection).  (b) An unknown sort key is silently ignored: the request
succeeds and the results are returned unsorted. -/
theorem c6_counterexample :
    search_products [] "x" ⟨none, none, some (.str "abc"), none, false⟩ "relevance" 50
      = .ok ⟨[], 0, "x", none, none⟩ ∧
    search_products [fxDog] "dog" fxNoFilters "banana" 50
      = .ok ⟨[fxDog], 1, "dog", some fxNoFilters, some "banana"⟩ := by
  exact ⟨by with_unfolding_all rfl, by with_unfolding_all rfl⟩

/-- A non-numeric `price_min` bound makes `apply_filters` fail with the
`float()` conversion error, whatever the product list. -/
theorem apply_filters_bad_price_min (X : List SProduct) (fl : Filters) (s : String)
    (hpm : fl.price_min = some (.str s)) (hparse : pyFloatParse? s = none) :
    apply_filters X fl = .error ("could not convert string to float: " ++ s) := by
  unfold apply_filters
  rw [if_neg (by
    intro he
    rw [he] at hpm
    cases hpm)]
  simp only []
  rw [show filter_price_min (filter_animal (filter_category X fl.category) fl.animal)
      fl.price_min = .error ("could not convert string to float: " ++ s) from by
    rw [hpm]
    unfold filter_price_min
    simp [pyFloat, hparse, Except.map]]

/-- Claim C6, amended: an unknown sort key is not rejected — `sort_products`
returns its input unchanged; a non-numeric price bound raises the `float()`
conversion error only when the filter stage actually runs (the catalog is
nonempty), and that stage runs after relevance scoring, not at the boundary. -/
theorem c6_malformed (l : List SProduct) (scores : List (Option Nat × ℚ))
    (sb : String) (products : List SProduct) (query : String) (fl : Filters)
    (s : String) (lim : Nat)
    (h1 : sb ≠ "relevance") (h2 : sb ≠ "price_low") (h3 : sb ≠ "price_high")
    (h4 : sb ≠ "name")
    (hpm : fl.price_min = some (.str s)) (hparse : pyFloatParse? s = none)
    (hne : products ≠ []) :
    sort_products l sb scores = l ∧
    search_products products query fl sb lim
      = .error ("could not convert string to float: " ++ s) := by
  constructor
  · unfold sort_products
    rw [if_neg (by simp [h1]), if_neg (by simp [h2]), if_neg (by simp [h3]),
      if_neg (by simp [h4])]
  · unfold search_products
    rw [if_neg (by simp [hne])]
    simp only []
    rw [apply_filters_bad_price_min _ fl s hpm hparse]

/-- Claim C6, witness. -/
theorem c6_malformed_witness :
    sort_products [fxDog] "banana" [] = [fxDog] ∧
    search_products [fxDog] "dog" ⟨none, none, some (.str "abc"), none, false⟩ "banana" 50
      = .error ("could not convert string to float: " ++ "abc") :=
  c6_malformed [fxDog] [] "banana" [fxDog] "dog" ⟨none, none, some (.str "abc"), none, false⟩
    "abc" 50 (by decide) (by decide) (by decide) (by decide) rfl (by decide) (by decide)

/-! ### Claim C8 -/

theorem addTermPosting_terms_mem (idx : SearchIndex) (key : String) (pid n : Nat)
    (w : String) :
    n ∈ (addTermPosting idx key pid).terms w ↔
      n ∈ idx.terms w ∨ (n = pid ∧ key = w) := by
  show n ∈ (if w = key then idx.terms w ++ [pid] else idx.terms w) ↔ _
  by_cases hw : w = key
  · rw [if_pos hw, List.mem_append]
    simp [hw.symm]
  · rw [if_neg hw]
    constructor
    · exact Or.inl
    · rintro (h | ⟨hn, hk⟩)
      · exact h
      · exact absurd hk.symm hw

/-- Membership in the postings after the title-word fold of `indexProduct`. -/
theorem titleFold_terms_mem (pid : Nat) (ws : List (List Char)) (idx : SearchIndex)
    (n : Nat) (w : String) :
    n ∈ (ws.foldl (fun acc u => addTermPosting acc (⟨u⟩ : String) pid) idx).terms w
      ↔ n ∈ idx.terms w ∨ (n = pid ∧ ∃ u ∈ ws, (⟨u⟩ : String) = w) := by
  induction ws generalizing idx with
  | nil => simp
  | cons u us ih =>
    rw [List.foldl_cons, ih, addTermPosting_terms_mem]
    constructor
    · rintro ((h | ⟨hn, hu⟩) | ⟨hn, x, hx, hxw⟩)
      · exact Or.inl h
      · exact Or.inr ⟨hn, ⟨u, List.mem_cons_self u us, hu⟩⟩
      · exact Or.inr ⟨hn, ⟨x, List.mem_cons_of_mem u hx, hxw⟩⟩
    · rintro (h | ⟨hn, x, hx, hxw⟩)
      · exact Or.inl (Or.inl h)
      · rcases List.mem_cons.1 hx with rfl | hx2
        · exact Or.inl (Or.inr ⟨hn, hxw⟩)
        · exact Or.inr ⟨hn, ⟨x, hx2, hxw⟩⟩

/-- Membership in the postings after the tag fold of `indexProduct`. -/
theorem tagFold_terms_mem (pid : Nat) (tags : List String) (idx : SearchIndex)
    (n : Nat) (w : String) :
    n ∈ (tags.foldl
        (fun acc tag =>
          let tag_norm := normalize_text (some tag)
          if tag_norm = "" then acc
          else addTermPosting acc tag_norm pid)
        idx).terms w
      ↔ n ∈ idx.terms w ∨
          (n = pid ∧ ∃ tag ∈ tags, normalize_text (some tag) = w ∧ ¬ w = "") := by
  induction tags generalizing idx with
  | nil => simp
  | cons t ts ih =>
    rw [List.foldl_cons, ih]
    by_cases ht : normalize_text (some t) = ""
    · have hstep : (let tag_norm := normalize_text (some t);
          if tag_norm = "" then idx
          else addTermPosting idx tag_norm pid) = idx := by
        simp [ht]
      rw [hstep]
      constructor
      · rintro (h | ⟨hn, x, hx, hxw, hwne⟩)
        · exact Or.inl h
        · exact Or.inr ⟨hn, ⟨x, List.mem_cons_of_mem t hx, hxw, hwne⟩⟩
      · rintro (h | ⟨hn, x, hx, hxw, hwne⟩)
        · exact Or.inl h
        · rcases List.mem_cons.1 hx with rfl | hx2
          · exact absurd (hxw.symm.trans ht) hwne
          · exact Or.inr ⟨hn, ⟨x, hx2, hxw, hwne⟩⟩
    · have hstep : (let tag_norm := normalize_text (some t);
          if tag_norm = "" then idx
          else addTermPosting idx tag_norm pid)
          = addTermPosting idx (normalize_text (some t)) pid := by
        simp [ht]
      rw [hstep, addTermPosting_terms_mem]
      constructor
      · rintro ((h | ⟨hn, hu⟩) | ⟨hn, x, hx, hxw, hwne⟩)
        · exact Or.inl h
        · exact Or.inr ⟨hn, ⟨t, List.mem_cons_self t ts, hu, fun he => ht (hu.trans he)⟩⟩
        · exact Or.inr ⟨hn, ⟨x, List.mem_cons_of_mem t hx, hxw, hwne⟩⟩
      · rintro (h | ⟨hn, x, hx, hxw, hwne⟩)
        · exact Or.inl (Or.inl h)
        · rcases List.mem_cons.1 hx with rfl | hx2
          · exact Or.inl (Or.inr ⟨hn, hxw⟩)
          · exact Or.inr ⟨hn, ⟨x, hx2, hxw, hwne⟩⟩

/-- Membership in the postings after indexing one product. -/
theorem indexProduct_terms_mem (idx : SearchIndex) (p : SProduct) (n : Nat) (w : String) :
    n ∈ (indexProduct idx p).terms w ↔
      n ∈ idx.terms w ∨
        (p.id = some n ∧ ¬ n = 0 ∧
          ((∃ u ∈ pySplitWs (normalize_text p.title).data, 2 < u.length ∧ (⟨u⟩ : String) = w) ∨
           (∃ tag ∈ p.tags, normalize_text (some tag) = w ∧ ¬ w = ""))) := by
  cases hid : p.id with
  | none =>
    rw [show indexProduct idx p = idx from by unfold indexProduct; rw [hid]]
    simp [hid]
  | some pid =>
    by_cases h0 : pid = 0
    · subst h0
      rw [show indexProduct idx p = idx from by simp [indexProduct, hid]]
      constructor
      · exact Or.inl
      · rintro (h | ⟨hpid, hn0, -⟩)
        · exact h
        · exact absurd (Option.some.inj hpid).symm hn0
    · have hterms : (indexProduct idx p).terms w
          = (p.tags.foldl
              (fun acc tag =>
                let tag_norm := normalize_text (some tag)
                if tag_norm = "" then acc
                else addTermPosting acc tag_norm pid)
              (((pySplitWs (normalize_text p.title).data).filter
                  (fun u => decide (2 < u.length))).foldl
                (fun acc u => addTermPosting acc (⟨u⟩ : String) pid)
                { idx with productsIdx := fun k =>
                    (if k = pid then some (ProdSummary.mk p.title p.price p.images.head?)
                      else idx.productsIdx k) })).terms w := by
        unfold indexProduct
        rw [hid]
        simp only []
        rw [if_neg h0]
      rw [hterms, tagFold_terms_mem, titleFold_terms_mem]
      have hbase : ({ idx with productsIdx := fun k =>
          (if k = pid then some (ProdSummary.mk p.title p.price p.images.head?)
            else idx.productsIdx k) } : SearchIndex).terms w = idx.terms w := rfl
      rw [hbase]
      constructor
      · rintro ((h | ⟨rfl, u, hu, huw⟩) | ⟨rfl, x, hx, hxw, hwne⟩)
        · exact Or.inl h
        · have hu2 := List.mem_filter.1 hu
          exact Or.inr ⟨rfl, h0, Or.inl ⟨u, hu2.1, of_decide_eq_true hu2.2, huw⟩⟩
        · exact Or.inr ⟨rfl, h0, Or.inr ⟨x, hx, hxw, hwne⟩⟩
      · rintro (h | ⟨hpid, hn0, (⟨u, hu, hl, huw⟩ | ⟨x, hx, hxw, hwne⟩)⟩)
        · exact Or.inl (Or.inl h)
        · have hnp : n = pid := (Option.some.inj hpid).symm
          subst hnp
          exact Or.inl (Or.inr ⟨rfl, ⟨u, List.mem_filter.2 ⟨hu, decide_eq_true hl⟩, huw⟩⟩)
        · have hnp : n = pid := (Option.some.inj hpid).symm
          subst hnp
          exact Or.inr ⟨rfl, ⟨x, hx, hxw, hwne⟩⟩

/-- Membership in the postings of the whole index build. -/
theorem buildFold_terms_mem (products : List SProduct) (idx : SearchIndex)
    (n : Nat) (w : String) :
    n ∈ (products.foldl indexProduct idx).terms w ↔
      n ∈ idx.terms w ∨
        ∃ p ∈ products, p.id = some n ∧ ¬ n = 0 ∧
          ((∃ u ∈ pySplitWs (normalize_text p.title).data, 2 < u.length ∧ (⟨u⟩ : String) = w) ∨
           (∃ tag ∈ p.tags, normalize_text (some tag) = w ∧ ¬ w = "")) := by
  induction products generalizing idx with
  | nil => simp
  | cons a rest ih =>
    rw [List.foldl_cons, ih, indexProduct_terms_mem]
    constructor
    · rintro ((h | hc) | ⟨p, hp, hrest⟩)
      · exact Or.inl h
      · exact Or.inr ⟨a, List.mem_cons_self a rest, hc⟩
      · exact Or.inr ⟨p, List.mem_cons_of_mem a hp, hrest⟩
    · rintro (h | ⟨p, hp, hrest⟩)
      · exact Or.inl (Or.inl h)
      · rcases List.mem_cons.1 hp with rfl | hp2
        · exact Or.inl (Or.inr hrest)
        · exact Or.inr ⟨p, hp2, hrest⟩

theorem build_search_index_terms_mem (products : List SProduct) (n : Nat) (w : String) :
    n ∈ (build_search_index products).terms w ↔
      ∃ p ∈ products, p.id = some n ∧ ¬ n = 0 ∧
        ((∃ u ∈ pySplitWs (normalize_text p.title).data, 2 < u.length ∧ (⟨u⟩ : String) = w) ∨
         (∃ tag ∈ p.tags, normalize_text (some tag) = w ∧ ¬ w = "")) := by
  unfold build_search_index
  rw [buildFold_terms_mem]
  simp

/-- Claim C8, counterexample.  The title words are appended once per
occurrence, so a repeated title word yields DUPLICATE ids in the postings
list (it is not a set); and a tag is normalized wholesale and added whatever
its length — here the one-character term "a" — rather than being split into
words of at least 3 characters. -/
theorem c8_counterexample :
    (build_search_index [fxDup]).terms "dog" = [1, 1] ∧
    (build_search_index [fxDup]).terms "a" = [1] ∧
    "a".length < 3 := by
  exact ⟨by with_unfolding_all rfl, by with_unfolding_all rfl, by decide⟩

/-- Claim C8, amended: under unique (truthy) ids, a product's id appears in
the postings of `w` iff `w` is a `≥3`-character word of its normalized title
or `w` is the (nonempty) wholesale normalization of one of its tags; tags are
not word-split and no 3-character minimum applies to them, and postings are
lists that may contain duplicate ids (one per title-word occurrence). -/
theorem c8_index_postings (products : List SProduct) (p : SProduct) (n : Nat) (w : String)
    (hp : p ∈ products) (hid : p.id = some n) (hn : ¬ n = 0)
    (huniq : ∀ q ∈ products, q.id = some n → q = p) :
    n ∈ (build_search_index products).terms w ↔
      ((∃ u ∈ pySplitWs (normalize_text p.title).data, 2 < u.length ∧ (⟨u⟩ : String) = w) ∨
       (∃ tag ∈ p.tags, normalize_text (some tag) = w ∧ ¬ w = "")) := by
  rw [build_search_index_terms_mem]
  constructor
  · rintro ⟨q, hq, hqid, -, hcond⟩
    rwa [huniq q hq hqid] at hcond
  · intro hcond
    exact ⟨p, hp, hid, hn, hcond⟩

/-- Claim C8, witness. -/
theorem c8_index_postings_witness :
    1 ∈ (build_search_index [fxDup]).terms "dog" :=
  (c8_index_postings [fxDup] fxDup 1 "dog" (by decide) rfl (by decide)
      (by decide)).mpr
    (Or.inl ⟨"dog".data, by decide, by decide, rfl⟩)
